import Mathlib

/-!
Verification of the command-invocation visitor in
`crates/paracord/src/interaction/visitor/command.rs`.

The Rust source is shallowly embedded: serenity's data types are modelled as
plain inductive types, the `HashMap` option map as an association list with
insert-overwrite and erase (a deterministic model; the claims about `Trailing`
speak of the *set* of names, which is what we prove), and every `&mut self`
method returns its result together with the updated visitor.
-/

namespace Paracord

/-- Model of `serenity::model::application::command::CommandType` (the
invocation kind), restricted to the variants the source inspects plus a
catch-all. -/
inductive CommandType where
  | ChatInput
  | User
  | Message
  | Unknown
deriving DecidableEq

/-- Model of `serenity::model::application::command::CommandOptionType`. -/
inductive CommandOptionType where
  | SubCommand
  | SubCommandGroup
  | String
  | Integer
  | Boolean
  | User
  | Channel
  | Role
  | Mentionable
  | Number
  | Attachment
  | Unknown
deriving DecidableEq

/-- Model of `serenity::model::user::User`; the visitor only moves these
values, so an id suffices. -/
structure User where
  id : Nat
deriving DecidableEq

/-- Model of `serenity::model::guild::PartialMember`. -/
structure PartialMember where
  id : Nat
deriving DecidableEq

/-- Model of `serenity::model::channel::PartialChannel`. -/
structure PartialChannel where
  id : Nat
deriving DecidableEq

/-- Model of `serenity::model::guild::Role`. -/
structure Role where
  id : Nat
deriving DecidableEq

/-- Model of `serenity::model::channel::Attachment`. -/
structure Attachment where
  id : Nat
deriving DecidableEq

/-- Model of `serenity::model::channel::Message`. -/
structure Message where
  id : Nat
deriving DecidableEq

/-- Model of an `f64` payload; the code never computes with it, so we model a
number by its 64-bit pattern. -/
structure F64 where
  bits : Nat
deriving DecidableEq

/-- Model of `CommandDataOptionValue`: the resolved-value union.  The
`Unknown` constructor stands for every variant the source's catch-all `_`
arm covers. -/
inductive CommandDataOptionValue where
  | String (s : String)
  | Integer (i : Int)
  | Boolean (b : Bool)
  | User (u : Paracord.User) (m : Option PartialMember)
  | Channel (c : PartialChannel)
  | Role (r : Paracord.Role)
  | Number (f : F64)
  | Attachment (a : Paracord.Attachment)
  | Unknown
deriving DecidableEq

/-- `OptionValueType` from the source: the lightweight kind tag used in error
messages. -/
inductive OptionValueType where
  | String
  | Integer
  | Boolean
  | User
  | Channel
  | Role
  | Number
  | Attachment
  | Unknown
deriving DecidableEq

/-- `impl Describe for CommandDataOptionValue` from the source. -/
def describe : CommandDataOptionValue → OptionValueType
  | .String _ => .String
  | .Integer _ => .Integer
  | .Boolean _ => .Boolean
  | .User _ _ => .User
  | .Channel _ => .Channel
  | .Role _ => .Role
  | .Number _ => .Number
  | .Attachment _ => .Attachment
  | .Unknown => .Unknown

/-- Model of `CommandDataOption`: one named argument node. -/
inductive CommandDataOption where
  | mk (name : String) (kind : CommandOptionType)
       (resolved : Option CommandDataOptionValue)
       (options : List CommandDataOption)

/-- Field `name` of a `CommandDataOption`. -/
def CommandDataOption.name : CommandDataOption → String
  | .mk n _ _ _ => n

/-- Field `kind` of a `CommandDataOption`. -/
def CommandDataOption.kind : CommandDataOption → CommandOptionType
  | .mk _ k _ _ => k

/-- Field `resolved` of a `CommandDataOption`. -/
def CommandDataOption.resolved : CommandDataOption → Option CommandDataOptionValue
  | .mk _ _ r _ => r

/-- Field `options` (suboptions) of a `CommandDataOption`. -/
def CommandDataOption.options : CommandDataOption → List CommandDataOption
  | .mk _ _ _ o => o

/-- Model of `CommandDataResolved`: the side table of resolved entities.  The
`HashMap`s are modelled as association lists keyed by ids. -/
structure CommandDataResolved where
  users : List (Nat × User)
  members : List (Nat × PartialMember)
  roles : List (Nat × Role)
  channels : List (Nat × PartialChannel)
  messages : List (Nat × Message)
  attachments : List (Nat × Attachment)

/-- Model of `CommandData`: what `self.base.int.data()` exposes. -/
structure CommandData where
  kind : CommandType
  options : List CommandDataOption
  resolved : CommandDataResolved

/-- The visitor error type from `visitor/mod.rs` (not under `src/`); its
variants and payloads are exactly those constructed in `command.rs` and
listed in spec section 7. -/
inductive Error where
  | NotChatInput
  | NotUser
  | NotMessage
  | Malformed (reason : String)
  | MissingOption (name : String)
  | MissingSubcommand
  | UnhandledSubcommand (path : List String)
  | BadOptionType (name : String) (expected : String) (actual : CommandOptionType)
  | BadOptionValueType (name : String) (expected : String) (actual : OptionValueType)
  | Trailing (names : List String)

/-- `OptionMap` from the source: `HashMap<&str, &CommandDataOption>`, modelled
as an association list whose keys are kept unique by construction. -/
abbrev OptionMap := List (String × CommandDataOption)

/-- `HashMap` lookup on the association-list model. -/
def mapLookup (m : OptionMap) (k : String) : Option CommandDataOption :=
  (m.find? (fun p => p.1 == k)).map (fun p => p.2)

/-- `HashMap::remove`, the map part: drop every binding of `k`. -/
def mapErase (m : OptionMap) (k : String) : OptionMap :=
  m.filter (fun p => p.1 != k)

/-- `HashMap::insert` as used by `collect`: overwrite any existing binding. -/
def mapInsert (m : OptionMap) (k : String) (v : CommandDataOption) : OptionMap :=
  mapErase m k ++ [(k, v)]

/-- `VisitorState` from the source: the option map is cached after the first
access, and nothing else is. -/
inductive VisitorState where
  | Init
  | SlashCommand (m : OptionMap)

/-- `CommandVisitor`: the borrowed invocation data plus the state. -/
structure CommandVisitor where
  data : CommandData
  state : VisitorState

/-- The `matches!(kind, SubCommand | SubCommandGroup)` test from the source. -/
def isSubcommandKind : CommandOptionType → Bool
  | .SubCommand => true
  | .SubCommandGroup => true
  | _ => false

/-- The `.map(..).collect::<Result<HashMap>>()` step of `visit_opts`: reject
subcommand kinds after descent has stopped, insert everything else. -/
def collectOpts : OptionMap → List CommandDataOption → Except Error OptionMap
  | m, [] => .ok m
  | m, o :: rest =>
    if isSubcommandKind o.kind then
      .error (.Malformed "Found subcommand after normal option(s)")
    else
      collectOpts (mapInsert m o.name o) rest

/-- The descent loop of `visit_opts`: while the first option of the current
level is a subcommand or group, record its name, reject any sibling after it,
and descend into its suboptions; afterwards collect the remaining level. -/
def visitOptsBuild : List String → List CommandDataOption →
    Except Error (List String × OptionMap)
  | subpath, [] => .ok (subpath, [])
  | subcmd, CommandDataOption.mk n k r sub :: rest =>
    if isSubcommandKind k then
      if rest.isEmpty then
        visitOptsBuild (subcmd ++ [n]) sub
      else
        .error (.Malformed "Found normal option after subcommand")
    else
      (collectOpts [] (CommandDataOption.mk n k r sub :: rest)).map (fun m => (subcmd, m))
termination_by _p l => sizeOf l
decreasing_by
  simp_wf
  omega

/-- `CommandVisitor::visit_opts`.  On the cached branch the source returns
`(None, m)`: the subcommand path is not stored in the state and is reported
only by the call that performs the build. -/
def CommandVisitor.visitOpts (v : CommandVisitor) :
    Except Error (Option (List String) × OptionMap) × CommandVisitor :=
  match v.state with
  | .SlashCommand m => (.ok (none, m), v)
  | .Init =>
    if v.data.kind = CommandType.ChatInput then
      match visitOptsBuild [] v.data.options with
      | .error e => (.error e, v)
      | .ok (subcmd, m) =>
        (.ok (if subcmd.isEmpty then none else some subcmd, m),
         { v with state := .SlashCommand m })
    else
      (.error .NotChatInput, v)

/-- `CommandVisitor::visit_opt`: build (or fetch) the map, fail if this call
reported a pending subcommand path, then remove and return the named entry. -/
def CommandVisitor.visit_opt (v : CommandVisitor) (name : String) :
    Except Error (Option CommandDataOption) × CommandVisitor :=
  match v.visitOpts with
  | (.error e, v') => (.error e, v')
  | (.ok (some subcmd, _), v') => (.error (.UnhandledSubcommand subcmd), v')
  | (.ok (none, m), v') =>
    (.ok (mapLookup m name), { v' with state := .SlashCommand (mapErase m name) })

/-- `OptionVisitor` from the source (named `OptionResult` in the spec). -/
structure OptionVisitor (T : Type) where
  name : String
  val : Option T

/-- `OptionVisitor::optional`. -/
def OptionVisitor.optional {T : Type} (o : OptionVisitor T) : Option T := o.val

/-- `OptionVisitor::required`. -/
def OptionVisitor.required {T : Type} (o : OptionVisitor T) : Except Error T :=
  match o.val with
  | some v => .ok v
  | none => .error (.MissingOption o.name)

/-- The body of the `visit_basic!` macro: each generated accessor is this
function at a fixed expected kind, description literal and projection from
the value union (`some` exactly on the expected variant). -/
def visitBasic (T : Type) (expected : CommandOptionType) (desc : String)
    (extract : CommandDataOptionValue → Option T)
    (v : CommandVisitor) (name : String) :
    Except Error (OptionVisitor T) × CommandVisitor :=
  match v.visit_opt name with
  | (.error e, v') => (.error e, v')
  | (.ok none, v') => (.ok ⟨name, none⟩, v')
  | (.ok (some opt), v') =>
    if opt.kind = expected then
      match opt.resolved with
      | some val =>
        match extract val with
        | some x => (.ok ⟨name, some x⟩, v')
        | none => (.error (.BadOptionValueType name desc (describe val)), v')
      | none => (.ok ⟨name, none⟩, v')
    else
      (.error (.BadOptionType name desc opt.kind), v')

/-- Projection for `visit_string`: the `String(s) => s` arm. -/
def extractString : CommandDataOptionValue → Option String
  | .String s => some s
  | _ => none

/-- Projection for `visit_i64`: the `Integer(i) => *i` arm. -/
def extractInteger : CommandDataOptionValue → Option Int
  | .Integer i => some i
  | _ => none

/-- Projection for `visit_bool`: the `Boolean(b) => *b` arm. -/
def extractBoolean : CommandDataOptionValue → Option Bool
  | .Boolean b => some b
  | _ => none

/-- Projection for `visit_user`: the `User(u, m) => (u, m)` arm. -/
def extractUser : CommandDataOptionValue → Option (User × Option PartialMember)
  | .User u m => some (u, m)
  | _ => none

/-- Projection for `visit_channel`: the `Channel(c) => c` arm. -/
def extractChannel : CommandDataOptionValue → Option PartialChannel
  | .Channel c => some c
  | _ => none

/-- Projection for `visit_role`: the `Role(r) => r` arm. -/
def extractRole : CommandDataOptionValue → Option Role
  | .Role r => some r
  | _ => none

/-- Projection for `visit_number`: the `Number(f) => *f` arm. -/
def extractNumber : CommandDataOptionValue → Option F64
  | .Number f => some f
  | _ => none

/-- Projection for `visit_attachment`: the `Attachment(a) => a` arm. -/
def extractAttachment : CommandDataOptionValue → Option Attachment
  | .Attachment a => some a
  | _ => none

/-- `CommandVisitor::visit_string`. -/
def CommandVisitor.visit_string (v : CommandVisitor) (name : String) :
    Except Error (OptionVisitor String) × CommandVisitor :=
  visitBasic String CommandOptionType.String "a string" extractString v name

/-- `CommandVisitor::visit_i64`. -/
def CommandVisitor.visit_i64 (v : CommandVisitor) (name : String) :
    Except Error (OptionVisitor Int) × CommandVisitor :=
  visitBasic Int CommandOptionType.Integer "an integer" extractInteger v name

/-- `CommandVisitor::visit_bool`. -/
def CommandVisitor.visit_bool (v : CommandVisitor) (name : String) :
    Except Error (OptionVisitor Bool) × CommandVisitor :=
  visitBasic Bool CommandOptionType.Boolean "a Boolean" extractBoolean v name

/-- `CommandVisitor::visit_user`. -/
def CommandVisitor.visit_user (v : CommandVisitor) (name : String) :
    Except Error (OptionVisitor (User × Option PartialMember)) × CommandVisitor :=
  visitBasic (User × Option PartialMember) CommandOptionType.User "a user" extractUser v name

/-- `CommandVisitor::visit_channel`. -/
def CommandVisitor.visit_channel (v : CommandVisitor) (name : String) :
    Except Error (OptionVisitor PartialChannel) × CommandVisitor :=
  visitBasic PartialChannel CommandOptionType.Channel "a channel" extractChannel v name

/-- `CommandVisitor::visit_role`. -/
def CommandVisitor.visit_role (v : CommandVisitor) (name : String) :
    Except Error (OptionVisitor Role) × CommandVisitor :=
  visitBasic Role CommandOptionType.Role "a role" extractRole v name

/-- `CommandVisitor::visit_number`. -/
def CommandVisitor.visit_number (v : CommandVisitor) (name : String) :
    Except Error (OptionVisitor F64) × CommandVisitor :=
  visitBasic F64 CommandOptionType.Number "a number" extractNumber v name

/-- `CommandVisitor::visit_attachment`. -/
def CommandVisitor.visit_attachment (v : CommandVisitor) (name : String) :
    Except Error (OptionVisitor Attachment) × CommandVisitor :=
  visitBasic Attachment CommandOptionType.Attachment "an attachment" extractAttachment v name

/-- `CommandVisitor::visit_subcmd`. -/
def CommandVisitor.visit_subcmd (v : CommandVisitor) :
    Except Error (List String) × CommandVisitor :=
  match v.visitOpts with
  | (.error e, v') => (.error e, v')
  | (.ok (some subcmd, _), v') => (.ok subcmd, v')
  | (.ok (none, _), v') => (.error .MissingSubcommand, v')

/-- `TargetVisitor`: the invocation kind plus the resolved-entities table. -/
structure TargetVisitor where
  kind : CommandType
  resolved : CommandDataResolved

/-- `CommandVisitor::target`. -/
def CommandVisitor.target (v : CommandVisitor) : TargetVisitor :=
  ⟨v.data.kind, v.data.resolved⟩

/-- `TargetVisitor::pull_single_opt`: none for an empty map, the sole entry
for a singleton, `Trailing([name])` for two or more entries. -/
def pullSingleOpt {K V : Type} (map : List (K × V)) (name : String) :
    Except Error (Option (K × V)) :=
  match map with
  | [] => .ok none
  | [p] => .ok (some p)
  | _ :: _ :: _ => .error (.Trailing [name])

/-- `TargetVisitor::pull_single`: additionally turn `None` into
`MissingOption(name)`. -/
def pullSingle {K V : Type} (map : List (K × V)) (name : String) :
    Except Error (K × V) :=
  match pullSingleOpt map name with
  | .error e => .error e
  | .ok none => .error (.MissingOption name)
  | .ok (some p) => .ok p

/-- `TargetVisitor::user`. -/
def TargetVisitor.user (t : TargetVisitor) :
    Except Error (User × Option PartialMember) :=
  if t.kind = CommandType.User then
    match pullSingle t.resolved.users "user" with
    | .error e => .error e
    | .ok (_, u) =>
      match pullSingleOpt t.resolved.members "member" with
      | .error e => .error e
      | .ok mo => .ok (u, mo.map (fun p => p.2))
  else
    .error .NotUser

/-- `TargetVisitor::message`. -/
def TargetVisitor.message (t : TargetVisitor) : Except Error Message :=
  if t.kind = CommandType.Message then
    match pullSingle t.resolved.messages "message" with
    | .error e => .error e
    | .ok (_, msg) => .ok msg
  else
    .error .NotMessage

/-- `CommandVisitor::finish`: in `Init`, fail with all top-level names when a
slash command supplied options that were never looked at; once built, fail
with the names still in the map. -/
def CommandVisitor.finish (v : CommandVisitor) : Except Error Unit :=
  match v.state with
  | .Init =>
    if v.data.kind = CommandType.ChatInput ∧ v.data.options.isEmpty = false then
      .error (.Trailing (v.data.options.map CommandDataOption.name))
    else
      .ok ()
  | .SlashCommand m =>
    if m.isEmpty then
      .ok ()
    else
      .error (.Trailing (m.map Prod.fst))

/-- Transcription of spec section 4.2, steps 3 and 4, for the refinement part
of claim C5: first scan the whole post-descent level for subcommand kinds,
then key the level by name (last-wins insert). -/
def specCollect (opts : List CommandDataOption) : Except Error OptionMap :=
  if opts.any (fun o => isSubcommandKind o.kind) then
    .error (.Malformed "Found subcommand after normal option(s)")
  else
    .ok (opts.foldl (fun m o => mapInsert m o.name o) [])

/-- Transcription of spec section 4.2, step 2, for the refinement part of
claim C5: while the first remaining option is a subcommand or group, append
its name to the path, fail if any sibling follows it at that level, and
descend into its suboptions. -/
def specDescend : List String → List CommandDataOption →
    Except Error (List String × OptionMap)
  | path, [] => .ok (path, [])
  | path, CommandDataOption.mk n k r sub :: rest =>
    if isSubcommandKind k then
      if rest.isEmpty then
        specDescend (path ++ [n]) sub
      else
        .error (.Malformed "Found normal option after subcommand")
    else
      (specCollect (CommandDataOption.mk n k r sub :: rest)).map (fun m => (path, m))
termination_by _p l => sizeOf l
decreasing_by
  simp_wf
  omega

/-- The last sibling carrying a given name, in sibling order: the entry a
last-wins overwrite retains. -/
def lastOcc (opts : List CommandDataOption) (name : String) :
    Option CommandDataOption :=
  opts.reverse.find? (fun o => o.name == name)

/-- An empty resolved-entities table, for concrete test invocations. -/
def emptyResolved : CommandDataResolved := ⟨[], [], [], [], [], []⟩

/-- Concrete invocation: a bare `search` subcommand with no suboptions. -/
def searchData : CommandData :=
  ⟨CommandType.ChatInput,
   [CommandDataOption.mk "search" CommandOptionType.SubCommand none []],
   emptyResolved⟩

/-- Concrete invocation: subcommand `search` carrying a string option `query`
resolved to `"cats"`. -/
def searchQueryData : CommandData :=
  ⟨CommandType.ChatInput,
   [CommandDataOption.mk "search" CommandOptionType.SubCommand none
      [CommandDataOption.mk "query" CommandOptionType.String
        (some (CommandDataOptionValue.String "cats")) []]],
   emptyResolved⟩

/-- Concrete leaf option: integer `x` resolved to 5. -/
def xIntOpt : CommandDataOption :=
  CommandDataOption.mk "x" CommandOptionType.Integer
    (some (CommandDataOptionValue.Integer 5)) []

/-- Concrete leaf option: string `y` resolved to `"a"`. -/
def yStrOpt : CommandDataOption :=
  CommandDataOption.mk "y" CommandOptionType.String
    (some (CommandDataOptionValue.String "a")) []

/-- Concrete invocation with the two leaf options `x` and `y`. -/
def xyData : CommandData :=
  ⟨CommandType.ChatInput, [xIntOpt, yStrOpt], emptyResolved⟩

/-- Concrete user id 7, for target-visitor inputs. -/
def userSeven : User := ⟨7⟩

/-- Concrete resolved table with exactly one user and no member profile. -/
def oneUserResolved : CommandDataResolved :=
  ⟨[(7, userSeven)], [], [], [], [], []⟩

/-- Concrete leaf option: string `a` resolved to `"1"` (first duplicate). -/
def dupOptOne : CommandDataOption :=
  CommandDataOption.mk "a" CommandOptionType.String
    (some (CommandDataOptionValue.String "1")) []

/-- Concrete leaf option: string `a` resolved to `"2"` (second duplicate). -/
def dupOptTwo : CommandDataOption :=
  CommandDataOption.mk "a" CommandOptionType.String
    (some (CommandDataOptionValue.String "2")) []

theorem find?_filter_of_imp {α : Type} (l : List α) (p q : α → Bool)
    (h : ∀ a, p a = true → q a = true) :
    (l.filter q).find? p = l.find? p := by
  induction l with
  | nil => rfl
  | cons hd tl ih =>
    by_cases hp : p hd = true
    · rw [List.filter_cons, if_pos (h hd hp), List.find?_cons_of_pos _ hp,
        List.find?_cons_of_pos _ hp]
    · by_cases hq : q hd = true
      · rw [List.filter_cons, if_pos hq, List.find?_cons_of_neg _ hp,
          List.find?_cons_of_neg _ hp, ih]
      · rw [List.filter_cons, if_neg hq, List.find?_cons_of_neg _ hp, ih]

theorem mapLookup_mapErase_self (m : OptionMap) (k : String) :
    mapLookup (mapErase m k) k = none := by
  simp only [mapLookup, mapErase, Option.map_eq_none', List.find?_eq_none,
    List.mem_filter, bne_iff_ne, beq_iff_eq]
  intro p hp
  exact hp.2

theorem not_mem_mapErase_keys (m : OptionMap) (k : String) :
    k ∉ (mapErase m k).map Prod.fst := by
  simp only [mapErase, List.mem_map, List.mem_filter, bne_iff_ne]
  rintro ⟨p, ⟨-, hne⟩, hk⟩
  exact hne hk

theorem mapLookup_mapErase_ne (m : OptionMap) (k k' : String) (h : k' ≠ k) :
    mapLookup (mapErase m k) k' = mapLookup m k' := by
  rw [mapLookup, mapErase, find?_filter_of_imp, ← mapLookup]
  intro a ha
  have ha' : a.1 = k' := by simpa using ha
  simp only [bne_iff_ne, ne_eq, ha']
  exact h

theorem mapLookup_mapInsert_self (m : OptionMap) (k : String) (v : CommandDataOption) :
    mapLookup (mapInsert m k v) k = some v := by
  have herase : (mapErase m k).find? (fun p => p.1 == k) = none := by
    have h2 := mapLookup_mapErase_self m k
    rw [mapLookup, Option.map_eq_none'] at h2
    exact h2
  rw [mapInsert, mapLookup, List.find?_append, herase, Option.none_or,
    List.find?_cons_of_pos _ (by simp)]
  rfl

theorem mapLookup_mapInsert_ne (m : OptionMap) (k k' : String) (v : CommandDataOption)
    (h : k' ≠ k) :
    mapLookup (mapInsert m k v) k' = mapLookup m k' := by
  have h1 : List.find? (fun p => p.1 == k') [(k, v)] = none := by
    rw [List.find?_cons_of_neg _ (by simpa using fun hh => h (Eq.symm hh)), List.find?_nil]
  rw [mapInsert, mapLookup, List.find?_append, h1, Option.or_none, ← mapLookup]
  exact mapLookup_mapErase_ne m k k' h

theorem mapInsert_keys_nodup (m : OptionMap) (k : String) (v : CommandDataOption)
    (h : (m.map Prod.fst).Nodup) :
    ((mapInsert m k v).map Prod.fst).Nodup := by
  simp only [mapInsert, List.map_append, List.map_cons, List.map_nil]
  rw [List.nodup_append]
  refine ⟨?_, by simp, ?_⟩
  · exact h.sublist ((List.filter_sublist m).map Prod.fst)
  · intro a ha hb
    simp only [List.mem_cons, List.not_mem_nil, or_false] at hb
    rw [hb] at ha
    exact not_mem_mapErase_keys m k ha

theorem foldl_mapInsert_lookup (opts : List CommandDataOption) (m₀ : OptionMap)
    (name : String) :
    mapLookup (opts.foldl (fun m o => mapInsert m o.name o) m₀) name =
      match lastOcc opts name with
      | some o => some o
      | none => mapLookup m₀ name := by
  induction opts generalizing m₀ with
  | nil => simp [lastOcc]
  | cons o rest ih =>
    rw [List.foldl_cons, ih]
    simp only [lastOcc, List.reverse_cons, List.find?_append]
    cases hf : rest.reverse.find? (fun x => x.name == name) with
    | some x => rw [Option.or_some]
    | none =>
      rw [Option.none_or]
      by_cases hn : o.name = name
      · subst hn
        rw [List.find?_cons_of_pos _ (by simp), mapLookup_mapInsert_self]
      · rw [List.find?_cons_of_neg _ (by simpa using hn), List.find?_nil,
          mapLookup_mapInsert_ne m₀ o.name name o (fun hh => hn (Eq.symm hh))]

theorem foldl_mapInsert_nodup (opts : List CommandDataOption) (m₀ : OptionMap)
    (h : (m₀.map Prod.fst).Nodup) :
    ((opts.foldl (fun m o => mapInsert m o.name o) m₀).map Prod.fst).Nodup := by
  induction opts generalizing m₀ with
  | nil => exact h
  | cons o rest ih => exact ih _ (mapInsert_keys_nodup m₀ o.name o h)

theorem collectOpts_eq (opts : List CommandDataOption) (m₀ : OptionMap) :
    collectOpts m₀ opts =
      if opts.any (fun o => isSubcommandKind o.kind) then
        .error (.Malformed "Found subcommand after normal option(s)")
      else
        .ok (opts.foldl (fun m o => mapInsert m o.name o) m₀) := by
  induction opts generalizing m₀ with
  | nil => rfl
  | cons o rest ih =>
    by_cases hk : isSubcommandKind o.kind
    · simp [collectOpts, hk]
    · simp [collectOpts, hk, ih]

theorem visitOptsBuild_eq_specDescend (path : List String)
    (opts : List CommandDataOption) :
    visitOptsBuild path opts = specDescend path opts := by
  induction path, opts using visitOptsBuild.induct with
  | case1 p => simp [visitOptsBuild, specDescend]
  | case2 p n k r sub rest hk hr ih =>
    simp [visitOptsBuild, specDescend, hk, hr, ih]
  | case3 p n k r sub rest hk hr =>
    simp [visitOptsBuild, specDescend, hk, hr]
  | case4 p n k r sub rest hk =>
    simp only [visitOptsBuild, specDescend, hk, Bool.false_eq_true, if_false,
      collectOpts_eq, specCollect]

theorem visitOpts_built (d : CommandData) (m : OptionMap) :
    CommandVisitor.visitOpts ⟨d, .SlashCommand m⟩ =
      (.ok (none, m), ⟨d, .SlashCommand m⟩) := rfl

theorem visit_opt_built (d : CommandData) (m : OptionMap) (name : String) :
    CommandVisitor.visit_opt ⟨d, .SlashCommand m⟩ name =
      (.ok (mapLookup m name), ⟨d, .SlashCommand (mapErase m name)⟩) := rfl

theorem visitOpts_init_not_chat (d : CommandData)
    (h : d.kind ≠ CommandType.ChatInput) :
    CommandVisitor.visitOpts ⟨d, .Init⟩ = (.error .NotChatInput, ⟨d, .Init⟩) := by
  simp [CommandVisitor.visitOpts, h]

theorem visitOpts_init_ok (d : CommandData) (p : List String) (m : OptionMap)
    (hk : d.kind = CommandType.ChatInput)
    (hb : visitOptsBuild [] d.options = .ok (p, m)) :
    CommandVisitor.visitOpts ⟨d, .Init⟩ =
      (.ok (if p.isEmpty then none else some p, m), ⟨d, .SlashCommand m⟩) := by
  simp [CommandVisitor.visitOpts, hk, hb]

theorem visitOpts_init_err (d : CommandData) (e : Error)
    (hk : d.kind = CommandType.ChatInput)
    (hb : visitOptsBuild [] d.options = .error e) :
    CommandVisitor.visitOpts ⟨d, .Init⟩ = (.error e, ⟨d, .Init⟩) := by
  simp [CommandVisitor.visitOpts, hk, hb]

theorem visit_subcmd_built (d : CommandData) (m : OptionMap) :
    CommandVisitor.visit_subcmd ⟨d, .SlashCommand m⟩ =
      (.error .MissingSubcommand, ⟨d, .SlashCommand m⟩) := rfl

theorem visit_subcmd_init_some (d : CommandData) (p : List String) (m : OptionMap)
    (hk : d.kind = CommandType.ChatInput)
    (hb : visitOptsBuild [] d.options = .ok (p, m)) (hp : p ≠ []) :
    CommandVisitor.visit_subcmd ⟨d, .Init⟩ = (.ok p, ⟨d, .SlashCommand m⟩) := by
  have he : p.isEmpty = false := by
    cases p with
    | nil => exact absurd rfl hp
    | cons a l => rfl
  rw [CommandVisitor.visit_subcmd, visitOpts_init_ok d p m hk hb, he]
  simp

theorem visit_subcmd_init_none (d : CommandData) (m : OptionMap)
    (hk : d.kind = CommandType.ChatInput)
    (hb : visitOptsBuild [] d.options = .ok ([], m)) :
    CommandVisitor.visit_subcmd ⟨d, .Init⟩ =
      (.error .MissingSubcommand, ⟨d, .SlashCommand m⟩) := by
  rw [CommandVisitor.visit_subcmd, visitOpts_init_ok d [] m hk hb]
  rfl

theorem visit_opt_init_subcmd (d : CommandData) (p : List String) (m : OptionMap)
    (name : String) (hk : d.kind = CommandType.ChatInput)
    (hb : visitOptsBuild [] d.options = .ok (p, m)) (hp : p ≠ []) :
    CommandVisitor.visit_opt ⟨d, .Init⟩ name =
      (.error (.UnhandledSubcommand p), ⟨d, .SlashCommand m⟩) := by
  have he : p.isEmpty = false := by
    cases p with
    | nil => exact absurd rfl hp
    | cons a l => rfl
  rw [CommandVisitor.visit_opt, visitOpts_init_ok d p m hk hb, he]
  simp

theorem visitBasic_built_none (T : Type) (expected : CommandOptionType)
    (desc : String) (ext : CommandDataOptionValue → Option T)
    (d : CommandData) (m : OptionMap) (name : String)
    (h : mapLookup m name = none) :
    visitBasic T expected desc ext ⟨d, .SlashCommand m⟩ name =
      (.ok ⟨name, none⟩, ⟨d, .SlashCommand (mapErase m name)⟩) := by
  rw [visitBasic, visit_opt_built, h]

theorem visitBasic_built_some (T : Type) (expected : CommandOptionType)
    (desc : String) (ext : CommandDataOptionValue → Option T)
    (d : CommandData) (m : OptionMap) (name : String) (opt : CommandDataOption)
    (h : mapLookup m name = some opt) :
    visitBasic T expected desc ext ⟨d, .SlashCommand m⟩ name =
      ((if opt.kind = expected then
          match opt.resolved with
          | some val =>
            match ext val with
            | some x => .ok ⟨name, some x⟩
            | none => .error (.BadOptionValueType name desc (describe val))
          | none => .ok ⟨name, none⟩
        else
          .error (.BadOptionType name desc opt.kind)),
       ⟨d, .SlashCommand (mapErase m name)⟩) := by
  rw [visitBasic, visit_opt_built, h]
  by_cases hk : opt.kind = expected
  · rw [if_pos hk]
    cases hr : opt.resolved with
    | none => simp [hk, hr]
    | some val =>
      cases hx : ext val with
      | none => simp [hk, hr, hx]
      | some x => simp [hk, hr, hx]
  · simp [hk]

theorem visitBasic_built_snd (T : Type) (expected : CommandOptionType)
    (desc : String) (ext : CommandDataOptionValue → Option T)
    (d : CommandData) (m : OptionMap) (name : String) :
    (visitBasic T expected desc ext ⟨d, .SlashCommand m⟩ name).2 =
      ⟨d, .SlashCommand (mapErase m name)⟩ := by
  cases h : mapLookup m name with
  | none => rw [visitBasic_built_none T expected desc ext d m name h]
  | some opt => rw [visitBasic_built_some T expected desc ext d m name opt h]

theorem visitBasic_init_unhandled (T : Type) (expected : CommandOptionType)
    (desc : String) (ext : CommandDataOptionValue → Option T)
    (d : CommandData) (p : List String) (m : OptionMap) (name : String)
    (hk : d.kind = CommandType.ChatInput)
    (hb : visitOptsBuild [] d.options = .ok (p, m)) (hp : p ≠ []) :
    visitBasic T expected desc ext ⟨d, .Init⟩ name =
      (.error (.UnhandledSubcommand p), ⟨d, .SlashCommand m⟩) := by
  rw [visitBasic, visit_opt_init_subcmd d p m name hk hb hp]

/-- Claim C1: calling `finish` in the `Init` state fails with `Trailing`
containing all top-level option names exactly when the invocation is a
slash command whose top-level option list is non-empty, and succeeds when the
list is empty or the kind is not `ChatInput`; calling `finish` after the
builder has run succeeds iff the option map is empty and otherwise fails with
`Trailing` containing exactly the set of names still in the map. -/
theorem claim_C1 (d : CommandData) (m : OptionMap) :
    (CommandVisitor.finish ⟨d, .Init⟩ = .ok () ↔
      (d.kind ≠ CommandType.ChatInput ∨ d.options = []))
  ∧ (d.kind = CommandType.ChatInput → d.options ≠ [] →
      CommandVisitor.finish ⟨d, .Init⟩ =
        .error (.Trailing (d.options.map CommandDataOption.name)))
  ∧ (CommandVisitor.finish ⟨d, .SlashCommand m⟩ = .ok () ↔ m = [])
  ∧ (m ≠ [] →
      ∃ l, CommandVisitor.finish ⟨d, .SlashCommand m⟩ = .error (.Trailing l)
        ∧ ∀ s, s ∈ l ↔ s ∈ m.map Prod.fst) := by
  refine ⟨?_, ?_, ?_, ?_⟩
  · by_cases hk : d.kind = CommandType.ChatInput
    · cases ho : d.options with
      | nil => simp [CommandVisitor.finish, hk, ho]
      | cons a l => simp [CommandVisitor.finish, hk, ho]
    · simp [CommandVisitor.finish, hk]
  · intro hk ho
    have he : d.options.isEmpty = false := by
      cases hoo : d.options with
      | nil => exact absurd hoo ho
      | cons a l => rfl
    simp [CommandVisitor.finish, hk, he]
  · cases m with
    | nil => simp [CommandVisitor.finish]
    | cons a l => simp [CommandVisitor.finish]
  · intro hm
    have he : m.isEmpty = false := by
      cases hmm : m with
      | nil => exact absurd hmm hm
      | cons a l => rfl
    exact ⟨m.map Prod.fst, by simp [CommandVisitor.finish, he], fun s => Iff.rfl⟩

/-- Witness for claim C1 at concrete invocations: `finish` on the untouched
two-option invocation reports both names; on a built visitor it succeeds for
the empty map and reports `y` for the map still holding `y`. -/
theorem claim_C1_witness :
    CommandVisitor.finish ⟨xyData, .Init⟩ = .error (.Trailing ["x", "y"])
  ∧ (CommandVisitor.finish ⟨xyData, .SlashCommand []⟩ = .ok ())
  ∧ (∃ l, CommandVisitor.finish ⟨xyData, .SlashCommand [("y", yStrOpt)]⟩ =
        .error (.Trailing l) ∧ ∀ s, s ∈ l ↔ s ∈ ([("y", yStrOpt)] : OptionMap).map Prod.fst) := by
  refine ⟨?_, ?_, ?_⟩
  · have h := (claim_C1 xyData []).2.1 rfl (by simp [xyData])
    simpa [xyData, xIntOpt, yStrOpt, CommandDataOption.name] using h
  · exact (claim_C1 xyData []).2.2.1.mpr rfl
  · exact (claim_C1 xyData [("y", yStrOpt)]).2.2.2 (by simp)

/-- Claim C2 counterexample: on the slash invocation whose sole top-level
option is the subcommand `search`, the first `visit_subcmd` call returns the
path `["search"]`, but a second call on the returned visitor fails with
`MissingSubcommand` even though the invocation still has a subcommand path:
the path is not cached alongside the option map, contradicting both the
"every call returns the path" and the "fails iff no path exists" parts. -/
theorem claim_C2_counterexample :
    (CommandVisitor.visit_subcmd ⟨searchData, .Init⟩).1 = .ok ["search"]
  ∧ (CommandVisitor.visit_subcmd
        (CommandVisitor.visit_subcmd ⟨searchData, .Init⟩).2).1
      = .error .MissingSubcommand := by
  constructor
  · simp [CommandVisitor.visit_subcmd, CommandVisitor.visitOpts, searchData,
      visitOptsBuild, isSubcommandKind, collectOpts, Except.map, emptyResolved]
  · simp [CommandVisitor.visit_subcmd, CommandVisitor.visitOpts, searchData,
      visitOptsBuild, isSubcommandKind, collectOpts, Except.map, emptyResolved]

/-- Claim C2 (amended): only the `visit_subcmd` call that triggers the
option-map build observes the path: on a fresh slash-command visitor it
returns the invocation's subcommand path when that path is non-empty and
fails with `MissingSubcommand` when it is empty, while on an already-built
visitor every `visit_subcmd` call fails with `MissingSubcommand` regardless
of the invocation's path. -/
theorem claim_C2 (d : CommandData) (p : List String) (m : OptionMap)
    (hk : d.kind = CommandType.ChatInput)
    (hb : visitOptsBuild [] d.options = .ok (p, m)) :
    (p ≠ [] →
      CommandVisitor.visit_subcmd ⟨d, .Init⟩ = (.ok p, ⟨d, .SlashCommand m⟩))
  ∧ (p = [] →
      CommandVisitor.visit_subcmd ⟨d, .Init⟩ =
        (.error .MissingSubcommand, ⟨d, .SlashCommand m⟩))
  ∧ (∀ m2 : OptionMap,
      CommandVisitor.visit_subcmd ⟨d, .SlashCommand m2⟩ =
        (.error .MissingSubcommand, ⟨d, .SlashCommand m2⟩)) := by
  refine ⟨?_, ?_, ?_⟩
  · intro hp
    exact visit_subcmd_init_some d p m hk hb hp
  · intro hp
    rw [hp] at hb
    exact visit_subcmd_init_none d m hk hb
  · intro m2
    exact visit_subcmd_built d m2

/-- Witness for the amended claim C2 at the `search` invocation. -/
theorem claim_C2_witness :
    CommandVisitor.visit_subcmd ⟨searchData, .Init⟩ =
      (.ok ["search"], ⟨searchData, .SlashCommand []⟩)
  ∧ CommandVisitor.visit_subcmd ⟨searchData, .SlashCommand []⟩ =
      (.error .MissingSubcommand, ⟨searchData, .SlashCommand []⟩) := by
  have hb : visitOptsBuild [] searchData.options = .ok (["search"], []) := by
    simp [searchData, visitOptsBuild, isSubcommandKind, collectOpts, Except.map]
  exact ⟨(claim_C2 searchData ["search"] [] rfl hb).1 (by simp),
         (claim_C2 searchData ["search"] [] rfl hb).2.2 []⟩

/-- Claim C3 counterexample: on the invocation `search → query:"cats"`, the
first typed accessor call does fail with `UnhandledSubcommand ["search"]`,
but it also builds the option map; a second `visit_string "query"` call on
the returned visitor — made while the subcommand path was never consumed via
`visit_subcmd` — succeeds with the value `"cats"` instead of failing. -/
theorem claim_C3_counterexample :
    (CommandVisitor.visit_string ⟨searchQueryData, .Init⟩ "query").1
      = .error (.UnhandledSubcommand ["search"])
  ∧ (CommandVisitor.visit_string
        (CommandVisitor.visit_string ⟨searchQueryData, .Init⟩ "query").2 "query").1
      = .ok ⟨"query", some "cats"⟩ := by
  have hb : visitOptsBuild [] searchQueryData.options =
      .ok (["search"],
        [("query", CommandDataOption.mk "query" CommandOptionType.String
            (some (CommandDataOptionValue.String "cats")) [])]) := by
    simp [searchQueryData, visitOptsBuild, isSubcommandKind, collectOpts,
      Except.map, mapInsert, mapErase, CommandDataOption.kind,
      CommandDataOption.name]
  have h1 : CommandVisitor.visit_string ⟨searchQueryData, .Init⟩ "query" =
      (.error (.UnhandledSubcommand ["search"]),
       ⟨searchQueryData, .SlashCommand
          [("query", CommandDataOption.mk "query" CommandOptionType.String
              (some (CommandDataOptionValue.String "cats")) [])]⟩) :=
    visitBasic_init_unhandled String CommandOptionType.String "a string"
      extractString searchQueryData ["search"] _ "query" rfl hb (by simp)
  have hl : mapLookup
      [("query", CommandDataOption.mk "query" CommandOptionType.String
          (some (CommandDataOptionValue.String "cats")) [])] "query" =
      some (CommandDataOption.mk "query" CommandOptionType.String
        (some (CommandDataOptionValue.String "cats")) []) := by
    simp [mapLookup]
  have h2 : CommandVisitor.visit_string
      ⟨searchQueryData, .SlashCommand
        [("query", CommandDataOption.mk "query" CommandOptionType.String
            (some (CommandDataOptionValue.String "cats")) [])]⟩ "query" =
      (.ok ⟨"query", some "cats"⟩,
       ⟨searchQueryData, .SlashCommand
          (mapErase
            [("query", CommandDataOption.mk "query" CommandOptionType.String
                (some (CommandDataOptionValue.String "cats")) [])] "query")⟩) := by
    rw [CommandVisitor.visit_string,
      visitBasic_built_some String CommandOptionType.String "a string"
        extractString searchQueryData _ "query" _ hl]
    simp [CommandDataOption.kind, CommandDataOption.resolved, extractString]
  exact ⟨by rw [h1], by simp only [h1, h2]⟩

/-- Claim C3 (amended): only a typed accessor that itself triggers the
option-map build — i.e. one called on a visitor still in the `Init` state —
fails with `UnhandledSubcommand` carrying the invocation's subcommand path
(and it leaves the visitor in the built state); once the map is built, typed
accessors proceed against the subcommand's option map even if the path was
never consumed via `visit_subcmd`. -/
theorem claim_C3 (d : CommandData) (p : List String) (m : OptionMap)
    (name : String) (hk : d.kind = CommandType.ChatInput)
    (hb : visitOptsBuild [] d.options = .ok (p, m)) (hp : p ≠ []) :
    (∀ (T : Type) (expected : CommandOptionType) (desc : String)
        (ext : CommandDataOptionValue → Option T),
      visitBasic T expected desc ext ⟨d, .Init⟩ name =
        (.error (.UnhandledSubcommand p), ⟨d, .SlashCommand m⟩))
  ∧ CommandVisitor.visit_string ⟨d, .Init⟩ name =
      (.error (.UnhandledSubcommand p), ⟨d, .SlashCommand m⟩)
  ∧ CommandVisitor.visit_i64 ⟨d, .Init⟩ name =
      (.error (.UnhandledSubcommand p), ⟨d, .SlashCommand m⟩)
  ∧ CommandVisitor.visit_bool ⟨d, .Init⟩ name =
      (.error (.UnhandledSubcommand p), ⟨d, .SlashCommand m⟩)
  ∧ CommandVisitor.visit_user ⟨d, .Init⟩ name =
      (.error (.UnhandledSubcommand p), ⟨d, .SlashCommand m⟩)
  ∧ CommandVisitor.visit_channel ⟨d, .Init⟩ name =
      (.error (.UnhandledSubcommand p), ⟨d, .SlashCommand m⟩)
  ∧ CommandVisitor.visit_role ⟨d, .Init⟩ name =
      (.error (.UnhandledSubcommand p), ⟨d, .SlashCommand m⟩)
  ∧ CommandVisitor.visit_number ⟨d, .Init⟩ name =
      (.error (.UnhandledSubcommand p), ⟨d, .SlashCommand m⟩)
  ∧ CommandVisitor.visit_attachment ⟨d, .Init⟩ name =
      (.error (.UnhandledSubcommand p), ⟨d, .SlashCommand m⟩) := by
  refine ⟨fun T expected desc ext => visitBasic_init_unhandled T expected desc ext d p m name hk hb hp,
    ?_, ?_, ?_, ?_, ?_, ?_, ?_, ?_⟩
  all_goals
    exact visitBasic_init_unhandled _ _ _ _ d p m name hk hb hp

/-- Witness for the amended claim C3 at the `search → query:"cats"`
invocation, for the string accessor. -/
theorem claim_C3_witness :
    CommandVisitor.visit_string ⟨searchQueryData, .Init⟩ "query" =
      (.error (.UnhandledSubcommand ["search"]),
       ⟨searchQueryData, .SlashCommand
          [("query", CommandDataOption.mk "query" CommandOptionType.String
              (some (CommandDataOptionValue.String "cats")) [])]⟩) := by
  have hb : visitOptsBuild [] searchQueryData.options =
      .ok (["search"],
        [("query", CommandDataOption.mk "query" CommandOptionType.String
            (some (CommandDataOptionValue.String "cats")) [])]) := by
    simp [searchQueryData, visitOptsBuild, isSubcommandKind, collectOpts,
      Except.map, mapInsert, mapErase, CommandDataOption.kind,
      CommandDataOption.name]
  exact (claim_C3 searchQueryData ["search"] _ "query" rfl hb (by simp)).2.1

theorem visitBasic_kind_mismatch (T : Type) (expected : CommandOptionType)
    (desc : String) (ext : CommandDataOptionValue → Option T)
    (d : CommandData) (m : OptionMap) (name : String) (opt : CommandDataOption)
    (h : mapLookup m name = some opt) (hk : opt.kind ≠ expected) :
    visitBasic T expected desc ext ⟨d, .SlashCommand m⟩ name =
      (.error (.BadOptionType name desc opt.kind),
       ⟨d, .SlashCommand (mapErase m name)⟩) := by
  rw [visitBasic_built_some T expected desc ext d m name opt h, if_neg hk]

theorem visitBasic_value (T : Type) (expected : CommandOptionType)
    (desc : String) (ext : CommandDataOptionValue → Option T)
    (d : CommandData) (m : OptionMap) (name : String) (opt : CommandDataOption)
    (h : mapLookup m name = some opt) (hk : opt.kind = expected)
    (val : CommandDataOptionValue) (hr : opt.resolved = some val) :
    visitBasic T expected desc ext ⟨d, .SlashCommand m⟩ name =
      ((match ext val with
        | some x => .ok ⟨name, some x⟩
        | none => .error (.BadOptionValueType name desc (describe val))),
       ⟨d, .SlashCommand (mapErase m name)⟩) := by
  rw [visitBasic_built_some T expected desc ext d m name opt h, if_pos hk, hr]

/-- Claim C4: for every typed accessor called with a name present in the map
and no subcommand pending, a mismatch between the option's declared kind and
the accessor's expected kind fails with `BadOptionType(name, label, actual)`;
otherwise a present resolved value of the wrong variant fails with
`BadOptionValueType(name, label, describe(actual))`, and a matching variant
returns an `OptionResult` carrying the extracted payload. -/
theorem claim_C4 (d : CommandData) (m : OptionMap) (name : String)
    (opt : CommandDataOption) (h : mapLookup m name = some opt) :
    ((opt.kind ≠ CommandOptionType.String →
       CommandVisitor.visit_string ⟨d, .SlashCommand m⟩ name =
         (.error (.BadOptionType name "a string" opt.kind),
          ⟨d, .SlashCommand (mapErase m name)⟩))
  ∧ (opt.kind = CommandOptionType.String → ∀ val, opt.resolved = some val →
       CommandVisitor.visit_string ⟨d, .SlashCommand m⟩ name =
         ((match val with
           | CommandDataOptionValue.String s => .ok ⟨name, some s⟩
           | _ => .error (.BadOptionValueType name "a string" (describe val))),
          ⟨d, .SlashCommand (mapErase m name)⟩)))
  ∧ ((opt.kind ≠ CommandOptionType.Integer →
       CommandVisitor.visit_i64 ⟨d, .SlashCommand m⟩ name =
         (.error (.BadOptionType name "an integer" opt.kind),
          ⟨d, .SlashCommand (mapErase m name)⟩))
  ∧ (opt.kind = CommandOptionType.Integer → ∀ val, opt.resolved = some val →
       CommandVisitor.visit_i64 ⟨d, .SlashCommand m⟩ name =
         ((match val with
           | CommandDataOptionValue.Integer i => .ok ⟨name, some i⟩
           | _ => .error (.BadOptionValueType name "an integer" (describe val))),
          ⟨d, .SlashCommand (mapErase m name)⟩)))
  ∧ ((opt.kind ≠ CommandOptionType.Boolean →
       CommandVisitor.visit_bool ⟨d, .SlashCommand m⟩ name =
         (.error (.BadOptionType name "a Boolean" opt.kind),
          ⟨d, .SlashCommand (mapErase m name)⟩))
  ∧ (opt.kind = CommandOptionType.Boolean → ∀ val, opt.resolved = some val →
       CommandVisitor.visit_bool ⟨d, .SlashCommand m⟩ name =
         ((match val with
           | CommandDataOptionValue.Boolean b => .ok ⟨name, some b⟩
           | _ => .error (.BadOptionValueType name "a Boolean" (describe val))),
          ⟨d, .SlashCommand (mapErase m name)⟩)))
  ∧ ((opt.kind ≠ CommandOptionType.User →
       CommandVisitor.visit_user ⟨d, .SlashCommand m⟩ name =
         (.error (.BadOptionType name "a user" opt.kind),
          ⟨d, .SlashCommand (mapErase m name)⟩))
  ∧ (opt.kind = CommandOptionType.User → ∀ val, opt.resolved = some val →
       CommandVisitor.visit_user ⟨d, .SlashCommand m⟩ name =
         ((match val with
           | CommandDataOptionValue.User u mb => .ok ⟨name, some (u, mb)⟩
           | _ => .error (.BadOptionValueType name "a user" (describe val))),
          ⟨d, .SlashCommand (mapErase m name)⟩)))
  ∧ ((opt.kind ≠ CommandOptionType.Channel →
       CommandVisitor.visit_channel ⟨d, .SlashCommand m⟩ name =
         (.error (.BadOptionType name "a channel" opt.kind),
          ⟨d, .SlashCommand (mapErase m name)⟩))
  ∧ (opt.kind = CommandOptionType.Channel → ∀ val, opt.resolved = some val →
       CommandVisitor.visit_channel ⟨d, .SlashCommand m⟩ name =
         ((match val with
           | CommandDataOptionValue.Channel c => .ok ⟨name, some c⟩
           | _ => .error (.BadOptionValueType name "a channel" (describe val))),
          ⟨d, .SlashCommand (mapErase m name)⟩)))
  ∧ ((opt.kind ≠ CommandOptionType.Role →
       CommandVisitor.visit_role ⟨d, .SlashCommand m⟩ name =
         (.error (.BadOptionType name "a role" opt.kind),
          ⟨d, .SlashCommand (mapErase m name)⟩))
  ∧ (opt.kind = CommandOptionType.Role → ∀ val, opt.resolved = some val →
       CommandVisitor.visit_role ⟨d, .SlashCommand m⟩ name =
         ((match val with
           | CommandDataOptionValue.Role r => .ok ⟨name, some r⟩
           | _ => .error (.BadOptionValueType name "a role" (describe val))),
          ⟨d, .SlashCommand (mapErase m name)⟩)))
  ∧ ((opt.kind ≠ CommandOptionType.Number →
       CommandVisitor.visit_number ⟨d, .SlashCommand m⟩ name =
         (.error (.BadOptionType name "a number" opt.kind),
          ⟨d, .SlashCommand (mapErase m name)⟩))
  ∧ (opt.kind = CommandOptionType.Number → ∀ val, opt.resolved = some val →
       CommandVisitor.visit_number ⟨d, .SlashCommand m⟩ name =
         ((match val with
           | CommandDataOptionValue.Number f => .ok ⟨name, some f⟩
           | _ => .error (.BadOptionValueType name "a number" (describe val))),
          ⟨d, .SlashCommand (mapErase m name)⟩)))
  ∧ ((opt.kind ≠ CommandOptionType.Attachment →
       CommandVisitor.visit_attachment ⟨d, .SlashCommand m⟩ name =
         (.error (.BadOptionType name "an attachment" opt.kind),
          ⟨d, .SlashCommand (mapErase m name)⟩))
  ∧ (opt.kind = CommandOptionType.Attachment → ∀ val, opt.resolved = some val →
       CommandVisitor.visit_attachment ⟨d, .SlashCommand m⟩ name =
         ((match val with
           | CommandDataOptionValue.Attachment a => .ok ⟨name, some a⟩
           | _ => .error (.BadOptionValueType name "an attachment" (describe val))),
          ⟨d, .SlashCommand (mapErase m name)⟩))) := by
  refine ⟨⟨?_, ?_⟩, ⟨?_, ?_⟩, ⟨?_, ?_⟩, ⟨?_, ?_⟩, ⟨?_, ?_⟩, ⟨?_, ?_⟩, ⟨?_, ?_⟩, ⟨?_, ?_⟩⟩
  · exact fun hne => visitBasic_kind_mismatch _ _ _ _ d m name opt h hne
  · intro hk val hr
    have hv := visitBasic_value _ CommandOptionType.String "a string" extractString d m name opt h hk val hr
    cases val <;> simpa [extractString, describe] using hv
  · exact fun hne => visitBasic_kind_mismatch _ _ _ _ d m name opt h hne
  · intro hk val hr
    have hv := visitBasic_value _ CommandOptionType.Integer "an integer" extractInteger d m name opt h hk val hr
    cases val <;> simpa [extractInteger, describe] using hv
  · exact fun hne => visitBasic_kind_mismatch _ _ _ _ d m name opt h hne
  · intro hk val hr
    have hv := visitBasic_value _ CommandOptionType.Boolean "a Boolean" extractBoolean d m name opt h hk val hr
    cases val <;> simpa [extractBoolean, describe] using hv
  · exact fun hne => visitBasic_kind_mismatch _ _ _ _ d m name opt h hne
  · intro hk val hr
    have hv := visitBasic_value _ CommandOptionType.User "a user" extractUser d m name opt h hk val hr
    cases val <;> simpa [extractUser, describe] using hv
  · exact fun hne => visitBasic_kind_mismatch _ _ _ _ d m name opt h hne
  · intro hk val hr
    have hv := visitBasic_value _ CommandOptionType.Channel "a channel" extractChannel d m name opt h hk val hr
    cases val <;> simpa [extractChannel, describe] using hv
  · exact fun hne => visitBasic_kind_mismatch _ _ _ _ d m name opt h hne
  · intro hk val hr
    have hv := visitBasic_value _ CommandOptionType.Role "a role" extractRole d m name opt h hk val hr
    cases val <;> simpa [extractRole, describe] using hv
  · exact fun hne => visitBasic_kind_mismatch _ _ _ _ d m name opt h hne
  · intro hk val hr
    have hv := visitBasic_value _ CommandOptionType.Number "a number" extractNumber d m name opt h hk val hr
    cases val <;> simpa [extractNumber, describe] using hv
  · exact fun hne => visitBasic_kind_mismatch _ _ _ _ d m name opt h hne
  · intro hk val hr
    have hv := visitBasic_value _ CommandOptionType.Attachment "an attachment" extractAttachment d m name opt h hk val hr
    cases val <;> simpa [extractAttachment, describe] using hv

/-- Witness for claim C4: with the map holding integer `x:5`, the Boolean
accessor fails with `BadOptionType`, and the integer accessor extracts 5;
with string `y:"a"` in the map, the value-variant check of a declared-String
option resolved to a string succeeds, while an Integer-declared option
resolved to a string fails with `BadOptionValueType`. -/
theorem claim_C4_witness :
    CommandVisitor.visit_bool ⟨xyData, .SlashCommand [("x", xIntOpt)]⟩ "x" =
      (.error (.BadOptionType "x" "a Boolean" CommandOptionType.Integer),
       ⟨xyData, .SlashCommand (mapErase [("x", xIntOpt)] "x")⟩)
  ∧ CommandVisitor.visit_i64 ⟨xyData, .SlashCommand [("x", xIntOpt)]⟩ "x" =
      (.ok ⟨"x", some 5⟩, ⟨xyData, .SlashCommand (mapErase [("x", xIntOpt)] "x")⟩) := by
  have h : mapLookup [("x", xIntOpt)] "x" = some xIntOpt := by
    simp [mapLookup]
  constructor
  · have h1 := (claim_C4 xyData [("x", xIntOpt)] "x" xIntOpt h).2.2.1.1
      (by simp [xIntOpt, CommandDataOption.kind])
    simpa [xIntOpt, CommandDataOption.kind] using h1
  · have h2 := (claim_C4 xyData [("x", xIntOpt)] "x" xIntOpt h).2.1.2
      (by simp [xIntOpt, CommandDataOption.kind])
      (CommandDataOptionValue.Integer 5) (by simp [xIntOpt, CommandDataOption.resolved])
    simpa using h2

/-- Claim C5: on first access the builder fails with `NotChatInput` for a
non-slash invocation; otherwise it is the spec's algorithm: descend while the
first remaining option at each level is a subcommand or group, appending its
name to the path and failing `Malformed` when a sibling follows it, then
failing `Malformed` when a post-descent sibling is a subcommand or group, and
otherwise collecting the remaining siblings into the name-keyed map
(`visitOptsBuild` coincides with the spec transcription `specDescend`). -/
theorem claim_C5 (d : CommandData) :
    (d.kind ≠ CommandType.ChatInput →
      CommandVisitor.visitOpts ⟨d, .Init⟩ = (.error .NotChatInput, ⟨d, .Init⟩))
  ∧ (∀ (path : List String) (opts : List CommandDataOption),
      visitOptsBuild path opts = specDescend path opts)
  ∧ (d.kind = CommandType.ChatInput →
      (∀ p m, visitOptsBuild [] d.options = .ok (p, m) →
        CommandVisitor.visitOpts ⟨d, .Init⟩ =
          (.ok (if p.isEmpty then none else some p, m), ⟨d, .SlashCommand m⟩))
    ∧ (∀ e, visitOptsBuild [] d.options = .error e →
        CommandVisitor.visitOpts ⟨d, .Init⟩ = (.error e, ⟨d, .Init⟩))) := by
  refine ⟨visitOpts_init_not_chat d, ?_, ?_⟩
  · intro path opts
    exact visitOptsBuild_eq_specDescend path opts
  · intro hk
    exact ⟨fun p m hb => visitOpts_init_ok d p m hk hb,
           fun e hb => visitOpts_init_err d e hk hb⟩

/-- Witness for claim C5: a user-target invocation is rejected with
`NotChatInput`; the builder agrees with the spec transcription on the
`search → query` option tree; and the build of the two-option invocation is
surfaced by `visitOpts`. -/
theorem claim_C5_witness :
    CommandVisitor.visitOpts ⟨⟨CommandType.User, [], emptyResolved⟩, .Init⟩ =
      (.error .NotChatInput, ⟨⟨CommandType.User, [], emptyResolved⟩, .Init⟩)
  ∧ visitOptsBuild [] searchQueryData.options =
      specDescend [] searchQueryData.options
  ∧ CommandVisitor.visitOpts ⟨xyData, .Init⟩ =
      (.ok (none, [("x", xIntOpt), ("y", yStrOpt)]),
       ⟨xyData, .SlashCommand [("x", xIntOpt), ("y", yStrOpt)]⟩) := by
  refine ⟨(claim_C5 ⟨CommandType.User, [], emptyResolved⟩).1 (by simp),
    (claim_C5 xyData).2.1 [] searchQueryData.options, ?_⟩
  have hb : visitOptsBuild [] xyData.options =
      .ok ([], [("x", xIntOpt), ("y", yStrOpt)]) := by
    simp [xyData, xIntOpt, yStrOpt, visitOptsBuild, isSubcommandKind,
      collectOpts, Except.map, mapInsert, mapErase, CommandDataOption.kind,
      CommandDataOption.name]
  have h := ((claim_C5 xyData).2.2 rfl).1 [] [("x", xIntOpt), ("y", yStrOpt)] hb
  simpa using h

/-- Claim C6: a name already removed from the option map cannot be consumed
twice: looking it up after erasure yields nothing, every typed accessor on a
built visitor leaves the state with the name erased, a typed accessor for an
absent name returns an absent `OptionResult` rather than an error, and on an
absent result `optional` returns `none` while `required` fails with
`MissingOption(name)`. -/
theorem claim_C6 (d : CommandData) (m : OptionMap) (name : String) :
    mapLookup (mapErase m name) name = none
  ∧ (∀ (T : Type) (expected : CommandOptionType) (desc : String)
       (ext : CommandDataOptionValue → Option T),
       (visitBasic T expected desc ext ⟨d, .SlashCommand m⟩ name).2 =
         ⟨d, .SlashCommand (mapErase m name)⟩)
  ∧ (mapLookup m name = none →
       ∀ (T : Type) (expected : CommandOptionType) (desc : String)
         (ext : CommandDataOptionValue → Option T),
         visitBasic T expected desc ext ⟨d, .SlashCommand m⟩ name =
           (.ok ⟨name, none⟩, ⟨d, .SlashCommand (mapErase m name)⟩))
  ∧ (∀ (T : Type) (n : String), (OptionVisitor.mk n (none : Option T)).optional = none)
  ∧ (∀ (T : Type) (n : String),
       (OptionVisitor.mk n (none : Option T)).required = .error (.MissingOption n)) := by
  refine ⟨mapLookup_mapErase_self m name,
    fun T expected desc ext => visitBasic_built_snd T expected desc ext d m name,
    fun h T expected desc ext => visitBasic_built_none T expected desc ext d m name h,
    fun T n => rfl, fun T n => rfl⟩

/-- Witness for claim C6: after `visit_i64 "x"` consumes `x`, a second
access of `x` on the updated visitor returns an absent result, whose
`optional` is `none` and whose `required` fails with `MissingOption "x"`. -/
theorem claim_C6_witness :
    (CommandVisitor.visit_i64
        ⟨xyData, .SlashCommand (mapErase [("x", xIntOpt)] "x")⟩ "x").1 =
      .ok ⟨"x", none⟩
  ∧ (OptionVisitor.mk "x" (none : Option Int)).optional = none
  ∧ (OptionVisitor.mk "x" (none : Option Int)).required =
      .error (.MissingOption "x") := by
  refine ⟨?_, (claim_C6 xyData [] "x").2.2.2.1 Int "x",
    (claim_C6 xyData [] "x").2.2.2.2 Int "x"⟩
  have h := (claim_C6 xyData (mapErase [("x", xIntOpt)] "x") "x").2.2.1
    (by exact (claim_C6 xyData [("x", xIntOpt)] "x").1)
    Int CommandOptionType.Integer "an integer" extractInteger
  rw [CommandVisitor.visit_i64, h]

/-- Claim C7: `target().user()` fails `NotUser` off user-context-menu
invocations; on one it fails `MissingOption "user"` for an empty resolved
users map, `Trailing ["user"]` for two or more users, and for exactly one
user returns it paired with the single member profile when there is exactly
one, `none` when the members map is empty, and fails `Trailing ["member"]`
for two or more members. -/
theorem claim_C7 (k : CommandType) (r : CommandDataResolved) :
    (∀ (d : CommandData) (st : VisitorState),
      CommandVisitor.target ⟨d, st⟩ = ⟨d.kind, d.resolved⟩)
  ∧ (k ≠ CommandType.User → TargetVisitor.user ⟨k, r⟩ = .error .NotUser)
  ∧ (k = CommandType.User → r.users = [] →
      TargetVisitor.user ⟨k, r⟩ = .error (.MissingOption "user"))
  ∧ (k = CommandType.User → ∀ p q rest, r.users = p :: q :: rest →
      TargetVisitor.user ⟨k, r⟩ = .error (.Trailing ["user"]))
  ∧ (∀ uid u, k = CommandType.User → r.users = [(uid, u)] →
      (r.members = [] → TargetVisitor.user ⟨k, r⟩ = .ok (u, none))
    ∧ (∀ mid mb, r.members = [(mid, mb)] →
        TargetVisitor.user ⟨k, r⟩ = .ok (u, some mb))
    ∧ (∀ p q rest, r.members = p :: q :: rest →
        TargetVisitor.user ⟨k, r⟩ = .error (.Trailing ["member"]))) := by
  refine ⟨fun d st => rfl, ?_, ?_, ?_, ?_⟩
  · intro hk
    simp [TargetVisitor.user, hk]
  · intro hk hu
    simp [TargetVisitor.user, hk, pullSingle, pullSingleOpt, hu]
  · intro hk p q rest hu
    simp [TargetVisitor.user, hk, pullSingle, pullSingleOpt, hu]
  · intro uid u hk hu
    refine ⟨?_, ?_, ?_⟩
    · intro hm
      simp [TargetVisitor.user, hk, pullSingle, pullSingleOpt, hu, hm]
    · intro mid mb hm
      simp [TargetVisitor.user, hk, pullSingle, pullSingleOpt, hu, hm]
    · intro p q rest hm
      simp [TargetVisitor.user, hk, pullSingle, pullSingleOpt, hu, hm]

/-- Witness for claim C7 at concrete resolved tables: one user and no member
succeeds with `(user, none)`; a message-target invocation is rejected with
`NotUser`; an empty users map yields `MissingOption "user"`; a two-user map
yields `Trailing ["user"]`. -/
theorem claim_C7_witness :
    TargetVisitor.user ⟨CommandType.User, oneUserResolved⟩ = .ok (userSeven, none)
  ∧ TargetVisitor.user ⟨CommandType.Message, oneUserResolved⟩ = .error .NotUser
  ∧ TargetVisitor.user ⟨CommandType.User, emptyResolved⟩ =
      .error (.MissingOption "user")
  ∧ TargetVisitor.user
      ⟨CommandType.User, ⟨[(1, ⟨1⟩), (2, ⟨2⟩)], [], [], [], [], []⟩⟩ =
      .error (.Trailing ["user"]) := by
  refine ⟨?_, ?_, ?_, ?_⟩
  · exact ((claim_C7 CommandType.User oneUserResolved).2.2.2.2 7 userSeven rfl rfl).1 rfl
  · exact (claim_C7 CommandType.Message oneUserResolved).2.1 (by simp)
  · exact (claim_C7 CommandType.User emptyResolved).2.2.1 rfl rfl
  · exact (claim_C7 CommandType.User ⟨[(1, ⟨1⟩), (2, ⟨2⟩)], [], [], [], [], []⟩).2.2.2.1
      rfl (1, ⟨1⟩) (2, ⟨2⟩) [] rfl

/-- Claim C8: an option present in the map whose declared kind matches the
accessor's expected kind but whose resolved value is absent makes the
accessor succeed with an absent `OptionResult` — no `BadOptionValueType` or
other error — so `required` on it fails with `MissingOption(name)` and
`optional` returns `none`. -/
theorem claim_C8 (d : CommandData) (m : OptionMap) (name : String)
    (opt : CommandDataOption) (h : mapLookup m name = some opt)
    (hres : opt.resolved = none) :
    ∀ (T : Type) (expected : CommandOptionType) (desc : String)
      (ext : CommandDataOptionValue → Option T),
      opt.kind = expected →
        visitBasic T expected desc ext ⟨d, .SlashCommand m⟩ name =
          (.ok ⟨name, none⟩, ⟨d, .SlashCommand (mapErase m name)⟩)
      ∧ (OptionVisitor.mk name (none : Option T)).required =
          .error (.MissingOption name)
      ∧ (OptionVisitor.mk name (none : Option T)).optional = none := by
  intro T expected desc ext hk
  refine ⟨?_, rfl, rfl⟩
  rw [visitBasic_built_some T expected desc ext d m name opt h, if_pos hk, hres]

/-- Witness for claim C8: a Boolean-declared option `flag` with no resolved
value is consumed by `visit_bool` as an absent result. -/
theorem claim_C8_witness :
    CommandVisitor.visit_bool
        ⟨xyData, .SlashCommand
          [("flag", CommandDataOption.mk "flag" CommandOptionType.Boolean none [])]⟩
        "flag" =
      (.ok ⟨"flag", none⟩,
       ⟨xyData, .SlashCommand
          (mapErase
            [("flag", CommandDataOption.mk "flag" CommandOptionType.Boolean none [])]
            "flag")⟩) :=
  (claim_C8 xyData
    [("flag", CommandDataOption.mk "flag" CommandOptionType.Boolean none [])]
    "flag" (CommandDataOption.mk "flag" CommandOptionType.Boolean none [])
    (by simp [mapLookup]) rfl
    Bool CommandOptionType.Boolean "a Boolean" extractBoolean rfl).1

/-- Claim C9: typed-accessor failures are not atomic with respect to the
option map: on a built visitor the accessor's resulting state always has the
requested name erased (in particular after a `BadOptionType` or
`BadOptionValueType` failure), so a later `finish` never lists that name in
`Trailing` and a repeated accessor call for it returns an absent result. -/
theorem claim_C9 (d : CommandData) (m : OptionMap) (name : String) :
    (∀ (T : Type) (expected : CommandOptionType) (desc : String)
       (ext : CommandDataOptionValue → Option T) (e : Error),
       (visitBasic T expected desc ext ⟨d, .SlashCommand m⟩ name).1 = .error e →
       (visitBasic T expected desc ext ⟨d, .SlashCommand m⟩ name).2 =
         ⟨d, .SlashCommand (mapErase m name)⟩)
  ∧ (∀ l, CommandVisitor.finish ⟨d, .SlashCommand (mapErase m name)⟩ =
        .error (.Trailing l) → name ∉ l)
  ∧ (∀ (T : Type) (expected : CommandOptionType) (desc : String)
       (ext : CommandDataOptionValue → Option T),
       (visitBasic T expected desc ext ⟨d, .SlashCommand (mapErase m name)⟩ name).1 =
         .ok ⟨name, none⟩) := by
  refine ⟨fun T expected desc ext e _he =>
      visitBasic_built_snd T expected desc ext d m name, ?_, ?_⟩
  · intro l hl
    by_cases he : (mapErase m name).isEmpty = true
    · simp [CommandVisitor.finish, he] at hl
    · simp only [CommandVisitor.finish] at hl
      rw [if_neg he] at hl
      have hle : (mapErase m name).map Prod.fst = l := by
        simpa using hl
      rw [← hle]
      exact not_mem_mapErase_keys m name
  · intro T expected desc ext
    rw [visitBasic_built_none T expected desc ext d (mapErase m name) name
      (mapLookup_mapErase_self m name)]

/-- Witness for claim C9: `visit_bool "x"` on a map holding integer `x`
fails with `BadOptionType` yet removes `x`; `finish` afterwards cannot list
`x`, and a repeated access of `x` returns an absent result. -/
theorem claim_C9_witness :
    (CommandVisitor.visit_bool
        ⟨xyData, .SlashCommand [("x", xIntOpt), ("y", yStrOpt)]⟩ "x").2 =
      ⟨xyData, .SlashCommand (mapErase [("x", xIntOpt), ("y", yStrOpt)] "x")⟩
  ∧ "x" ∉ (["y"] : List String)
  ∧ (CommandVisitor.visit_bool
        ⟨xyData, .SlashCommand (mapErase [("x", xIntOpt), ("y", yStrOpt)] "x")⟩
        "x").1 =
      .ok ⟨"x", none⟩ := by
  refine ⟨(claim_C9 xyData [("x", xIntOpt), ("y", yStrOpt)] "x").1 Bool
      CommandOptionType.Boolean "a Boolean" extractBoolean
      (.BadOptionType "x" "a Boolean" CommandOptionType.Integer) ?_,
    (claim_C9 xyData [("x", xIntOpt), ("y", yStrOpt)] "x").2.1 ["y"] ?_,
    (claim_C9 xyData [("x", xIntOpt), ("y", yStrOpt)] "x").2.2 Bool
      CommandOptionType.Boolean "a Boolean" extractBoolean⟩
  · simp [visitBasic, CommandVisitor.visit_opt, CommandVisitor.visitOpts,
      mapLookup, mapErase, xIntOpt, yStrOpt, CommandDataOption.kind,
      CommandDataOption.resolved, extractBoolean]
  · simp [CommandVisitor.finish, mapErase, xIntOpt, yStrOpt]

/-- Claim C10: when post-descent siblings share a name, building the option
map does not fail; the map deterministically retains the sibling occurring
last in order (last-wins overwrite), every lookup — hence every accessor —
sees only that last occurrence, and the keys are duplicate-free, so `finish`
never reports an overwritten earlier sibling. -/
theorem claim_C10 (opts : List CommandDataOption)
    (h : ∀ o ∈ opts, isSubcommandKind o.kind = false) :
    ∃ m, visitOptsBuild [] opts = .ok ([], m)
      ∧ (∀ name, mapLookup m name = lastOcc opts name)
      ∧ (m.map Prod.fst).Nodup := by
  have hany : opts.any (fun o => isSubcommandKind o.kind) = false := by
    rw [List.any_eq_false]
    intro o ho
    simp [h o ho]
  refine ⟨opts.foldl (fun m o => mapInsert m o.name o) [], ?_, ?_, ?_⟩
  · cases opts with
    | nil => simp [visitOptsBuild]
    | cons o rest =>
      cases o with
      | mk n k r sub =>
        have hk : isSubcommandKind k = false := by
          have := h _ (List.mem_cons_self _ _)
          simpa [CommandDataOption.kind] using this
        simp [visitOptsBuild, hk, collectOpts_eq, hany, Except.map]
  · intro name
    rw [foldl_mapInsert_lookup]
    cases hl : lastOcc opts name with
    | some o => rfl
    | none => simp [mapLookup]
  · exact foldl_mapInsert_nodup opts [] (by simp)

/-- Witness for claim C10: two sibling string options both named `a`; the
build succeeds, the map holds the second (`"2"`) under `a`, and the key list
has no duplicates. -/
theorem claim_C10_witness :
    ∃ m, visitOptsBuild [] [dupOptOne, dupOptTwo] = .ok ([], m)
      ∧ (∀ name, mapLookup m name = lastOcc [dupOptOne, dupOptTwo] name)
      ∧ (m.map Prod.fst).Nodup :=
  claim_C10 [dupOptOne, dupOptTwo]
    (by
      intro o ho
      simp only [List.mem_cons, List.not_mem_nil, or_false] at ho
      rcases ho with h1 | h2
      · rw [h1]; rfl
      · rw [h2]; rfl)

end Paracord
